import Mathlib

/-!
Verification of the reorder-quantity calculator in `Product_AutoOrder1.5.py`.

The development shallowly embeds the core functions of the script:
`get_settings_for_item` (three-tier settings merge, lines 79-87),
`get_min_sales_for_row` (lines 68-77), the exclusion filter (lines 539-549),
`calculate_order_quantity` (lines 126-177), and the overstock median
relabeling (lines 769-776).  Python dicts of settings become finite maps
from a field enumeration to `Option ℤ`; pandas numeric columns (coerced to
`int64` by the script at line 537) become `ℤ`; the floating-point arithmetic
of the calculator becomes exact arithmetic over `ℚ`; `float('inf')` for the
days-to-stockout column becomes `none : Option ℚ`.
-/

namespace ProductOrder

/-- The five tunable setting fields stored in the settings dictionaries
(`lead_time`, `safety_stock_rate`, `addition_rate`, `order_unit`,
`min_sales`). -/
inductive SettingField
  | lead_time
  | safety_stock_rate
  | addition_rate
  | order_unit
  | min_sales
deriving DecidableEq, Fintype, Repr

/-- A (possibly partial) settings dictionary: each field is either present
with an integer value or absent, mirroring a Python dict that need not hold
all five keys. -/
abbrev PartialSettings := SettingField → Option ℤ

/-- The empty settings dictionary `{}`. -/
def emptyPartial : PartialSettings := fun _ => none

/-- Python dict merge `{**lo, **hi}` restricted to the five setting fields:
a key present in `hi` wins, otherwise the key falls through to `lo`. -/
def mergeSettings (lo hi : PartialSettings) : PartialSettings :=
  fun f =>
    match hi f with
    | some v => some v
    | none => lo f

/-- The persisted settings tree: `master_defaults` (the system-wide dict),
`defaults` (supplier name to partial dict, the script's
`settings["defaults"]`), and `overrides` (item code to partial dict, the
script's `settings["overrides"]`). -/
structure SettingsTree where
  master_defaults : PartialSettings
  defaults : List (String × PartialSettings)
  overrides : List (String × PartialSettings)

/-- Embedding of `get_settings_for_item` (script lines 79-87): the merged
dict `{**master_defaults, **supplier_defaults, **item_overrides}`, where an
absent supplier or item entry contributes the empty dict. -/
def get_settings_for_item (item_code supplier : String)
    (settings : SettingsTree) : PartialSettings :=
  let supplier_defaults := (settings.defaults.lookup supplier).getD emptyPartial
  let item_overrides := (settings.overrides.lookup item_code).getD emptyPartial
  mergeSettings (mergeSettings settings.master_defaults supplier_defaults) item_overrides

/-- One catalog line of the input spreadsheet.  `name`, `spec` and
`barcode` may be missing (NaN in pandas), hence `Option`; the numeric
columns are coerced to integers by the script (line 537). -/
structure ItemRow where
  item_code : String
  name : Option String
  spec : Option String
  barcode : Option String
  unit_price : ℤ
  supplier : String
  sales_quantity : ℤ
  current_stock : ℤ
deriving DecidableEq, Repr

/-- Embedding of `get_min_sales_for_row` (script lines 68-77): the item
override's `min_sales` when that entry exists and holds the key, else the
supplier default's `min_sales` when that entry exists and holds the key,
else `master_defaults.get('min_sales', 0)`. -/
def get_min_sales_for_row (row : ItemRow) (settings : SettingsTree) : ℤ :=
  match (settings.overrides.lookup row.item_code).bind
      (fun ps => ps SettingField.min_sales) with
  | some v => v
  | none =>
    match (settings.defaults.lookup row.supplier).bind
        (fun ps => ps SettingField.min_sales) with
    | some v => v
    | none => (settings.master_defaults SettingField.min_sales).getD 0

/-- Modelled from the spec (refinement comparator for the merge semantics of
§4.1): the field-level three-tier fallback — the item override's value when
defined, else the supplier default's value when defined, else the master
value. -/
def specFieldFallback (ov sup master : Option ℤ) : Option ℤ :=
  match ov with
  | some v => some v
  | none =>
    match sup with
    | some v => some v
    | none => master

/-- The categorical `비고` (remarks) column written by the script:
`발주 필요 (긴급)` (urgent reorder), `발주 필요` (reorder needed),
`재고 충분` (stock sufficient), `초과재고` (excess stock),
`악성 초과재고` (severe excess stock), and `기간 1일 이상` (the degenerate
"period invalid" marker written when `period_days ≤ 0`). -/
inductive Status
  | urgentReorder
  | reorderNeeded
  | stockSufficient
  | excessStock
  | severeExcessStock
  | periodInvalid
deriving DecidableEq, Repr

/-- The four arithmetic knobs attached to each result row by the script
(line 175, the `적용된 설정` summary `L: S: A: U:`); `order_unit` is the
value after the non-positive coercion of line 141. -/
structure AppliedSettings where
  lead_time : ℤ
  safety_stock_rate : ℤ
  addition_rate : ℤ
  order_unit : ℤ
deriving DecidableEq, Repr

/-- Per-row resolved settings for the calculator (script line 135): the
three-way dict merge with the `min_sales` key removed. -/
def finalSettingsOf (settings : SettingsTree) (row : ItemRow) : PartialSettings :=
  fun f =>
    if f = SettingField.min_sales then none
    else get_settings_for_item row.item_code row.supplier settings f

/-- Resolved `lead_time` with the script's fallback `.get('lead_time', 0)`
(line 137). -/
def leadTimeOf (settings : SettingsTree) (row : ItemRow) : ℤ :=
  (finalSettingsOf settings row SettingField.lead_time).getD 0

/-- Resolved `safety_stock_rate` divided by 100 (line 138). -/
def safetyRateOf (settings : SettingsTree) (row : ItemRow) : ℚ :=
  ((finalSettingsOf settings row SettingField.safety_stock_rate).getD 0 : ℚ) / 100

/-- Resolved `addition_rate` divided by 100 (line 139). -/
def additionRateOf (settings : SettingsTree) (row : ItemRow) : ℚ :=
  ((finalSettingsOf settings row SettingField.addition_rate).getD 0 : ℚ) / 100

/-- Resolved `order_unit` before coercion, with the script's fallback
`.get('order_unit', 1)` (line 140). -/
def rawOrderUnit (settings : SettingsTree) (row : ItemRow) : ℤ :=
  (finalSettingsOf settings row SettingField.order_unit).getD 1

/-- Resolved `order_unit` after the coercion `if order_unit <= 0: order_unit = 1`
(line 141). -/
def orderUnitOf (settings : SettingsTree) (row : ItemRow) : ℤ :=
  if rawOrderUnit settings row ≤ 0 then 1 else rawOrderUnit settings row

/-- The applied-settings summary attached to every result row (line 175). -/
def appliedOf (settings : SettingsTree) (row : ItemRow) : AppliedSettings :=
  ⟨leadTimeOf settings row,
   (finalSettingsOf settings row SettingField.safety_stock_rate).getD 0,
   (finalSettingsOf settings row SettingField.addition_rate).getD 0,
   orderUnitOf settings row⟩

/-- `avg_daily_sales = sales_quantity / period_days` (line 149). -/
def avgDailySales (period_days : ℤ) (row : ItemRow) : ℚ :=
  (row.sales_quantity : ℚ) / (period_days : ℚ)

/-- `sales_during_lead_time = avg_daily_sales * lead_time` (line 150). -/
def salesDuringLeadTime (settings : SettingsTree) (period_days : ℤ) (row : ItemRow) : ℚ :=
  avgDailySales period_days row * (leadTimeOf settings row : ℚ)

/-- `safety_stock = sales_during_lead_time * safety_stock_rate` (line 151). -/
def safetyStock (settings : SettingsTree) (period_days : ℤ) (row : ItemRow) : ℚ :=
  salesDuringLeadTime settings period_days row * safetyRateOf settings row

/-- `reorder_point = sales_during_lead_time + safety_stock` (line 152). -/
def reorderPoint (settings : SettingsTree) (period_days : ℤ) (row : ItemRow) : ℚ :=
  salesDuringLeadTime settings period_days row + safetyStock settings period_days row

/-- `base_order_quantity = reorder_point - current_stock` (line 153). -/
def baseOrderQuantity (settings : SettingsTree) (period_days : ℤ) (row : ItemRow) : ℚ :=
  reorderPoint settings period_days row - (row.current_stock : ℚ)

/-- `calculated_quantity = base_order_quantity * (1 + addition_rate)`
(line 162). -/
def calculatedQuantity (settings : SettingsTree) (period_days : ℤ) (row : ItemRow) : ℚ :=
  baseOrderQuantity settings period_days row * (1 + additionRateOf settings row)

/-- One output row of `calculate_order_quantity`: the input row plus the
columns the script adds to it (`추천 발주량`, `초과재고 수량`, `비고`,
`재고 소진 예상일` with `none` standing for `float('inf')`, and
`적용된 설정`). -/
structure CalcResult where
  row : ItemRow
  recommended : ℤ
  excess : ℤ
  status : Status
  days_to_stockout : Option ℚ
  applied : AppliedSettings
deriving DecidableEq, Repr

/-- The days-to-stockout column (line 170): `current_stock / avg_daily_sales`
when the average daily sales are positive, else `float('inf')`, embedded as
`none`. -/
def daysOf (period_days : ℤ) (row : ItemRow) : Option ℚ :=
  if 0 < avgDailySales period_days row then
    some ((row.current_stock : ℚ) / avgDailySales period_days row)
  else none

/-- `final_order_quantity = math.ceil(calculated_quantity / order_unit) * order_unit`
(line 163), with the order unit already coerced to be at least 1. -/
def finalOrderQuantity (settings : SettingsTree) (period_days : ℤ) (row : ItemRow) : ℤ :=
  Int.ceil (calculatedQuantity settings period_days row /
    (orderUnitOf settings row : ℚ)) * orderUnitOf settings row

/-- The per-row body of `calculate_order_quantity` (script lines 132-176):
settings resolution, the period guard, branch A (`base_order_quantity ≤ 0`,
excess / sufficient), branch B (ceiling rounding to the order unit and the
urgency comparison), and the days-to-stockout column. -/
def calcRow (settings : SettingsTree) (period_days : ℤ) (row : ItemRow) : CalcResult :=
  if 0 < period_days then
    if baseOrderQuantity settings period_days row ≤ 0 then
      if (row.current_stock : ℚ) > reorderPoint settings period_days row * 2 ∧
          0 < reorderPoint settings period_days row then
        ⟨row, 0, row.current_stock - Int.ceil (reorderPoint settings period_days row),
         Status.excessStock, daysOf period_days row, appliedOf settings row⟩
      else
        ⟨row, 0, 0, Status.stockSufficient, daysOf period_days row, appliedOf settings row⟩
    else
      ⟨row, finalOrderQuantity settings period_days row, 0,
       if row.current_stock < finalOrderQuantity settings period_days row then
         Status.urgentReorder
       else Status.reorderNeeded,
       daysOf period_days row, appliedOf settings row⟩
  else
    ⟨row, 0, 0, Status.periodInvalid, none, appliedOf settings row⟩

/-- Embedding of `calculate_order_quantity` (lines 126-177): the per-row
calculation applied to every input row in order. -/
def calculate_order_quantity (rows : List ItemRow) (settings : SettingsTree)
    (period_days : ℤ) : List CalcResult :=
  rows.map (calcRow settings period_days)

/-- The fixed non-product keyword list `EXCLUDE_KEYWORDS` of the script
(line 36): shipping fee, first-order promo, coupon, personal payment,
mileage. -/
def EXCLUDE_KEYWORDS : List String :=
  ["배송비", "첫 주문", "쿠폰", "개인결제", "마일리지"]

/-- Case-sensitive substring test: some tail of `s` starts with `pat`.
This is the semantics of `str.contains` for a regex alternation of plain
literals (line 540-541). -/
def strContainsSub (s pat : String) : Bool :=
  s.toList.tails.any (fun t => pat.toList.isPrefixOf t)

/-- Keyword exclusion test for one row (lines 540-541): the item name
contains one of the five keywords; a missing name (NaN, rendered as the
string `"nan"` by `astype(str)`) matches no keyword and is kept. -/
def keywordExcluded (row : ItemRow) : Bool :=
  match row.name with
  | none => false
  | some n => EXCLUDE_KEYWORDS.any (fun k => strContainsSub n k)

/-- Embedding of the exclusion filter (script lines 539-549): first drop
keyword-matching rows and count them, then drop rows whose sales quantity
is below the resolved `min_sales` and count those, returning the kept rows
and the two counts. -/
def filter_rows (rows : List ItemRow) (settings : SettingsTree) :
    List ItemRow × ℕ × ℕ :=
  let df_filtered := rows.filter (fun r => !(keywordExcluded r))
  let keyword_excluded_count := rows.length - df_filtered.length
  let df_final := df_filtered.filter
    (fun r => decide (get_min_sales_for_row r settings ≤ r.sales_quantity))
  (df_final, keyword_excluded_count, df_filtered.length - df_final.length)

/-- The overstock ratio of one result row (script line 772):
`current_stock / sales_quantity`, undefined (NaN) when the sales quantity
is zero. -/
def ratioOf (r : CalcResult) : Option ℚ :=
  if r.row.sales_quantity = 0 then none
  else some ((r.row.current_stock : ℚ) / (r.row.sales_quantity : ℚ))

/-- Insertion of a value into a sorted list of rationals. -/
def insertSorted (x : ℚ) : List ℚ → List ℚ
  | [] => [x]
  | y :: ys => if x ≤ y then x :: y :: ys else y :: insertSorted x ys

/-- Ascending insertion sort over rationals. -/
def sortQ (l : List ℚ) : List ℚ :=
  l.foldr insertSorted []

/-- The statistical median as computed by `pandas.Series.median` over the
defined ratios (line 773): `none` on the empty list, the middle element for
an odd count, the mean of the two middle elements for an even count. -/
def medianQ (l : List ℚ) : Option ℚ :=
  let s := sortQ l
  let n := s.length
  if n = 0 then none
  else if n % 2 = 1 then s.get? (n / 2)
  else
    match s.get? (n / 2 - 1), s.get? (n / 2) with
    | some a, some b => some ((a + b) / 2)
    | _, _ => none

/-- The relabeling test of `np.where(ratio >= median, ...)` (line 775-776):
true when the row's ratio is defined and at least the median; a NaN ratio
compares false. -/
def severeTest (r : CalcResult) (m : ℚ) : Bool :=
  match ratioOf r with
  | none => false
  | some q => decide (m ≤ q)

/-- The per-row relabeling of `np.where(..., "악성 초과재고", "초과재고")`
(line 776): only the status column changes. -/
def relabel (m : ℚ) (r : CalcResult) : CalcResult :=
  ⟨r.row, r.recommended, r.excess,
   if severeTest r m then Status.severeExcessStock else Status.excessStock,
   r.days_to_stockout, r.applied⟩

/-- Embedding of the overstock median relabeling (script lines 769-776):
compute the defined ratios, take their median, and when the median exists
relabel every row to severe excess (`악성 초과재고`) or excess
(`초과재고`) according to the test; when no median exists (empty set or all
ratios undefined) leave the rows unchanged. -/
def classify_overstock (l : List CalcResult) : List CalcResult :=
  match medianQ (l.filterMap ratioOf) with
  | none => l
  | some m => l.map (relabel m)

/-- A full master dictionary holding the script's initial defaults
`lead_time 15, safety_stock_rate 10, addition_rate 0, order_unit 5,
min_sales 0` (line 37). -/
def masterA : PartialSettings := fun f =>
  match f with
  | SettingField.lead_time => some 15
  | SettingField.safety_stock_rate => some 10
  | SettingField.addition_rate => some 0
  | SettingField.order_unit => some 5
  | SettingField.min_sales => some 0

/-- A full master dictionary for the worked calculation scenario:
`lead_time 15, safety_stock_rate 10, addition_rate 5, order_unit 10,
min_sales 0`. -/
def masterB : PartialSettings := fun f =>
  match f with
  | SettingField.lead_time => some 15
  | SettingField.safety_stock_rate => some 10
  | SettingField.addition_rate => some 5
  | SettingField.order_unit => some 10
  | SettingField.min_sales => some 0

/-- A partial supplier dictionary defining only `lead_time 7`. -/
def supplierX : PartialSettings := fun f =>
  match f with
  | SettingField.lead_time => some 7
  | _ => none

/-- Tree with a partial supplier entry under the name `X`, for the
field-level fallback check. -/
def treeFallback : SettingsTree := ⟨masterA, [("X", supplierX)], []⟩

/-- Tree holding only the initial master defaults. -/
def treeA : SettingsTree := ⟨masterA, [], []⟩

/-- Tree holding only the scenario master defaults. -/
def treeB : SettingsTree := ⟨masterB, [], []⟩

/-- Scenario row: sales 600, stock 80. -/
def rowS1 : ItemRow := ⟨"A001", some "상품", none, none, 1000, "S", 600, 80⟩

/-- Scenario row: sales 0, stock 100. -/
def rowS2 : ItemRow := ⟨"A002", some "상품", none, none, 1000, "S", 0, 100⟩

/-- Scenario row: sales 600, stock 800. -/
def rowS3 : ItemRow := ⟨"A003", some "상품", none, none, 1000, "S", 600, 800⟩

/-- A row whose name contains the shipping-fee keyword. -/
def rowKeyword : ItemRow := ⟨"K1", some "배송비 결제", none, none, 0, "S", 10, 0⟩

/-- A row with a missing name. -/
def rowNoName : ItemRow := ⟨"K2", none, none, none, 0, "S", 10, 0⟩

/-- A full master dictionary with `min_sales 50` for the threshold
scenario. -/
def masterMin : PartialSettings := fun f =>
  match f with
  | SettingField.lead_time => some 15
  | SettingField.safety_stock_rate => some 10
  | SettingField.addition_rate => some 0
  | SettingField.order_unit => some 5
  | SettingField.min_sales => some 50

/-- Tree with master `min_sales 50` and no other tiers. -/
def treeMin : SettingsTree := ⟨masterMin, [], []⟩

/-- A row with sales 40, below the threshold 50. -/
def rowQ40 : ItemRow := ⟨"M1", some "상품", none, none, 0, "S", 40, 0⟩

/-- A row with sales 60, above the threshold 50. -/
def rowQ60 : ItemRow := ⟨"M2", some "상품", none, none, 0, "S", 60, 0⟩

/-- An excess-stock result row with ratio 400 / 100 = 4. -/
def overRowHigh : CalcResult :=
  ⟨⟨"O1", some "상품", none, none, 100, "S", 100, 400⟩, 0, 70,
   Status.excessStock, none, ⟨15, 10, 0, 5⟩⟩

/-- An excess-stock result row with ratio 200 / 100 = 2. -/
def overRowLow : CalcResult :=
  ⟨⟨"O2", some "상품", none, none, 100, "S", 100, 200⟩, 0, 30,
   Status.excessStock, none, ⟨15, 10, 0, 5⟩⟩

section Lemmas

/-- Unfolding of the three-way merge to the explicit field-level fallback
chain. -/
lemma get_settings_eq_fallback (settings : SettingsTree) (item_code supplier : String)
    (f : SettingField) :
    get_settings_for_item item_code supplier settings f =
      specFieldFallback
        (((settings.overrides.lookup item_code).getD emptyPartial) f)
        (((settings.defaults.lookup supplier).getD emptyPartial) f)
        (settings.master_defaults f) := by
  simp only [get_settings_for_item, mergeSettings, specFieldFallback]

/-- Unfolding of `calcRow` for a non-positive period. -/
lemma calcRow_periodInvalid (settings : SettingsTree) (row : ItemRow) {p : ℤ}
    (hp : p ≤ 0) :
    calcRow settings p row =
      ⟨row, 0, 0, Status.periodInvalid, none, appliedOf settings row⟩ := by
  rw [calcRow, if_neg (by omega)]

/-- Unfolding of `calcRow` for the excess-stock branch. -/
lemma calcRow_excess (settings : SettingsTree) (row : ItemRow) {p : ℤ}
    (hp : 0 < p) (hb : baseOrderQuantity settings p row ≤ 0)
    (hc : (row.current_stock : ℚ) > reorderPoint settings p row * 2 ∧
      0 < reorderPoint settings p row) :
    calcRow settings p row =
      ⟨row, 0, row.current_stock - Int.ceil (reorderPoint settings p row),
       Status.excessStock, daysOf p row, appliedOf settings row⟩ := by
  rw [calcRow, if_pos hp, if_pos hb, if_pos hc]

/-- Unfolding of `calcRow` for the stock-sufficient branch. -/
lemma calcRow_sufficient (settings : SettingsTree) (row : ItemRow) {p : ℤ}
    (hp : 0 < p) (hb : baseOrderQuantity settings p row ≤ 0)
    (hc : ¬((row.current_stock : ℚ) > reorderPoint settings p row * 2 ∧
      0 < reorderPoint settings p row)) :
    calcRow settings p row =
      ⟨row, 0, 0, Status.stockSufficient, daysOf p row, appliedOf settings row⟩ := by
  rw [calcRow, if_pos hp, if_pos hb, if_neg hc]

/-- Unfolding of `calcRow` for branch B (a positive base order quantity). -/
lemma calcRow_branchB (settings : SettingsTree) (row : ItemRow) {p : ℤ}
    (hp : 0 < p) (hb : ¬(baseOrderQuantity settings p row ≤ 0)) :
    calcRow settings p row =
      ⟨row, finalOrderQuantity settings p row, 0,
       if row.current_stock < finalOrderQuantity settings p row then
         Status.urgentReorder
       else Status.reorderNeeded,
       daysOf p row, appliedOf settings row⟩ := by
  rw [calcRow, if_pos hp, if_neg hb]

/-- The coerced order unit is at least 1. -/
lemma one_le_orderUnitOf (settings : SettingsTree) (row : ItemRow) :
    1 ≤ orderUnitOf settings row := by
  rw [orderUnitOf]
  split_ifs with h <;> omega

/-- Arithmetic core of the rounding law: ceiling-rounding `x` up to a
multiple of a positive unit `u` dominates `x`, is positive when `x` is, and
is the least multiple of `u` that dominates `x`. -/
lemma ceil_unit_round (x : ℚ) (u : ℤ) (hu : 1 ≤ u) :
    x ≤ ((Int.ceil (x / (u : ℚ)) * u : ℤ) : ℚ)
    ∧ (0 < x → 0 < Int.ceil (x / (u : ℚ)) * u)
    ∧ (∀ k : ℤ, u ∣ k → x ≤ (k : ℚ) → Int.ceil (x / (u : ℚ)) * u ≤ k) := by
  have hu0 : (0 : ℚ) < (u : ℚ) := by exact_mod_cast hu
  refine ⟨?_, ?_, ?_⟩
  · have h1 : x / (u : ℚ) ≤ (Int.ceil (x / (u : ℚ)) : ℚ) := Int.le_ceil _
    have h2 := (div_le_iff₀ hu0).mp h1
    push_cast
    linarith
  · intro hx
    have hc : 0 < Int.ceil (x / (u : ℚ)) := Int.ceil_pos.mpr (div_pos hx hu0)
    exact mul_pos hc (by omega)
  · intro k hk hxk
    obtain ⟨m, rfl⟩ := hk
    have hm : x / (u : ℚ) ≤ (m : ℚ) := by
      rw [div_le_iff₀ hu0]
      push_cast at hxk ⊢
      linarith
    calc Int.ceil (x / (u : ℚ)) * u ≤ m * u :=
          mul_le_mul_of_nonneg_right (Int.ceil_le.mpr hm) (by omega)
      _ = u * m := mul_comm _ _

/-- Concrete settings resolution for the scenario tree. -/
lemma rowS1_leadTime : leadTimeOf treeB rowS1 = 15 := by decide

/-- Concrete safety rate for the scenario tree. -/
lemma rowS1_safetyRate : safetyRateOf treeB rowS1 = 1 / 10 := by
  rw [safetyRateOf,
    show (finalSettingsOf treeB rowS1 SettingField.safety_stock_rate).getD 0 = 10
      from by decide]
  norm_num

/-- Concrete addition rate for the scenario tree. -/
lemma rowS1_additionRate : additionRateOf treeB rowS1 = 1 / 20 := by
  rw [additionRateOf,
    show (finalSettingsOf treeB rowS1 SettingField.addition_rate).getD 0 = 5
      from by decide]
  norm_num

/-- Concrete order unit for the scenario tree. -/
lemma rowS1_orderUnit : orderUnitOf treeB rowS1 = 10 := by decide

/-- Concrete average daily sales of the scenario row. -/
lemma rowS1_avg : avgDailySales 30 rowS1 = 20 := by
  rw [avgDailySales, show rowS1.sales_quantity = 600 from rfl]
  norm_num

/-- Concrete lead-time sales of the scenario row. -/
lemma rowS1_sdlt : salesDuringLeadTime treeB 30 rowS1 = 300 := by
  rw [salesDuringLeadTime, rowS1_avg, rowS1_leadTime]
  norm_num

/-- Concrete safety stock of the scenario row. -/
lemma rowS1_safety : safetyStock treeB 30 rowS1 = 30 := by
  rw [safetyStock, rowS1_sdlt, rowS1_safetyRate]
  norm_num

/-- Concrete reorder point of the scenario row. -/
lemma rowS1_rp : reorderPoint treeB 30 rowS1 = 330 := by
  rw [reorderPoint, rowS1_sdlt, rowS1_safety]
  norm_num

/-- Concrete base order quantity of the scenario row. -/
lemma rowS1_base : baseOrderQuantity treeB 30 rowS1 = 250 := by
  rw [baseOrderQuantity, rowS1_rp, show rowS1.current_stock = 80 from rfl]
  norm_num

/-- Concrete scaled quantity of the scenario row. -/
lemma rowS1_calc : calculatedQuantity treeB 30 rowS1 = 525 / 2 := by
  rw [calculatedQuantity, rowS1_base, rowS1_additionRate]
  norm_num

/-- Concrete final order quantity of the scenario row. -/
lemma rowS1_final : finalOrderQuantity treeB 30 rowS1 = 270 := by
  rw [finalOrderQuantity, rowS1_calc, rowS1_orderUnit]
  rw [show (525 : ℚ) / 2 / ((10 : ℤ) : ℚ) = 105 / 4 by norm_num]
  rw [show Int.ceil ((105 : ℚ) / 4) = 27 from by
    rw [Int.ceil_eq_iff]
    constructor <;> norm_num]
  norm_num

/-- Concrete average daily sales of the overstock scenario row. -/
lemma rowS3_avg : avgDailySales 30 rowS3 = 20 := by
  rw [avgDailySales, show rowS3.sales_quantity = 600 from rfl]
  norm_num

/-- Concrete lead-time sales of the overstock scenario row. -/
lemma rowS3_sdlt : salesDuringLeadTime treeB 30 rowS3 = 300 := by
  rw [salesDuringLeadTime, rowS3_avg,
    show leadTimeOf treeB rowS3 = 15 from by decide]
  norm_num

/-- Concrete safety stock of the overstock scenario row. -/
lemma rowS3_safety : safetyStock treeB 30 rowS3 = 30 := by
  rw [safetyStock, rowS3_sdlt, safetyRateOf,
    show (finalSettingsOf treeB rowS3 SettingField.safety_stock_rate).getD 0 = 10
      from by decide]
  norm_num

/-- Concrete reorder point of the overstock scenario row. -/
lemma rowS3_rp : reorderPoint treeB 30 rowS3 = 330 := by
  rw [reorderPoint, rowS3_sdlt, rowS3_safety]
  norm_num

/-- Concrete base order quantity of the overstock scenario row. -/
lemma rowS3_base : baseOrderQuantity treeB 30 rowS3 = -470 := by
  rw [baseOrderQuantity, rowS3_rp, show rowS3.current_stock = 800 from rfl]
  norm_num

/-- The input row embedded in a calculation result is the input row itself:
`calcRow` only adds the result columns. -/
lemma calcRow_row (settings : SettingsTree) (p : ℤ) (row : ItemRow) :
    (calcRow settings p row).row = row := by
  rw [calcRow]
  split_ifs <;> rfl

/-- For a positive period every branch of `calcRow` writes the same
days-to-stockout column. -/
lemma calcRow_days (settings : SettingsTree) (row : ItemRow) {p : ℤ}
    (hp : 0 < p) :
    (calcRow settings p row).days_to_stockout = daysOf p row := by
  rw [calcRow, if_pos hp]
  split_ifs <;> rfl

/-- Concrete average daily sales of the zero-sales scenario row. -/
lemma rowS2_avg : avgDailySales 30 rowS2 = 0 := by
  rw [avgDailySales, show rowS2.sales_quantity = 0 from rfl]
  norm_num

/-- Concrete reorder point of the zero-sales scenario row. -/
lemma rowS2_rp : reorderPoint treeA 30 rowS2 = 0 := by
  rw [reorderPoint, safetyStock, salesDuringLeadTime, rowS2_avg]
  ring

/-- Concrete base order quantity of the zero-sales scenario row. -/
lemma rowS2_base : baseOrderQuantity treeA 30 rowS2 = -100 := by
  rw [baseOrderQuantity, rowS2_rp, show rowS2.current_stock = 100 from rfl]
  norm_num

/-- The boolean substring test agrees with the infix relation on the
underlying character lists. -/
lemma strContainsSub_iff (s pat : String) :
    strContainsSub s pat = true ↔ pat.toList <:+: s.toList := by
  rw [strContainsSub, List.any_eq_true]
  constructor
  · rintro ⟨t, ht, hpre⟩
    exact List.infix_iff_prefix_suffix.mpr
      ⟨t, List.isPrefixOf_iff_prefix.mp hpre, (List.mem_tails _ _).mp ht⟩
  · intro h
    obtain ⟨t, hpre, hsuf⟩ := List.infix_iff_prefix_suffix.mp h
    exact ⟨t, (List.mem_tails _ _).mpr hsuf, List.isPrefixOf_iff_prefix.mpr hpre⟩

/-- A filter and its complement split the length of a list. -/
lemma length_filter_split {α : Type} (p : α → Bool) (l : List α) :
    (l.filter p).length + (l.filter (fun a => !(p a))).length = l.length := by
  induction l with
  | nil => rfl
  | cons a t ih =>
    by_cases h : p a <;> simp [List.filter_cons, h] <;> omega

/-- Pairs of a list zipped with its image under a map are related by the
map. -/
lemma mem_zip_map {α : Type} (f : α → α) (l : List α) :
    ∀ pr ∈ l.zip (l.map f), pr.2 = f pr.1 := by
  induction l with
  | nil =>
    intro pr h
    simp at h
  | cons a t ih =>
    intro pr h
    rw [List.map_cons, List.zip_cons_cons] at h
    rcases List.mem_cons.mp h with h1 | h2
    · rw [h1]
    · exact ih pr h2

/-- Relabeling does not change the row, hence not the ratio. -/
lemma ratioOf_relabel (m : ℚ) (r : CalcResult) :
    ratioOf (relabel m r) = ratioOf r := rfl

/-- Relabeling twice with the same threshold is relabeling once. -/
lemma relabel_relabel (m : ℚ) (r : CalcResult) :
    relabel m (relabel m r) = relabel m r := rfl

/-- The defined ratios of a relabeled list are those of the original
list. -/
lemma filterMap_ratioOf_map_relabel (m : ℚ) (l : List CalcResult) :
    (l.map (relabel m)).filterMap ratioOf = l.filterMap ratioOf := by
  rw [List.filterMap_map]
  rfl

/-- Concrete ratio of the high overstock row. -/
lemma ratio_overRowHigh : ratioOf overRowHigh = some 4 := by
  rw [ratioOf, if_neg (by decide)]
  rw [show overRowHigh.row.current_stock = 400 from rfl,
    show overRowHigh.row.sales_quantity = 100 from rfl]
  norm_num

/-- Concrete ratio of the low overstock row. -/
lemma ratio_overRowLow : ratioOf overRowLow = some 2 := by
  rw [ratioOf, if_neg (by decide)]
  rw [show overRowLow.row.current_stock = 200 from rfl,
    show overRowLow.row.sales_quantity = 100 from rfl]
  norm_num

/-- Concrete median of the two overstock rows: (2 + 4) / 2 = 3. -/
lemma median_overPair :
    medianQ ([overRowHigh, overRowLow].filterMap ratioOf) = some 3 := by
  rw [show [overRowHigh, overRowLow].filterMap ratioOf = [4, 2] from by
    rw [List.filterMap_cons, ratio_overRowHigh, List.filterMap_cons,
      ratio_overRowLow, List.filterMap_nil]]
  rw [medianQ, sortQ]
  norm_num [insertSorted]

end Lemmas

/-- C1: field-level three-tier fallback.  For every item code, supplier and
settings tree whose master tier defines all five fields: (i) each field of
the resolved settings follows the item-override / supplier-default / master
fallback chain; (ii) an item with no override entry and no supplier entry
resolves to exactly `master_defaults`; (iii) resolution always yields a
defined value for every field (absent tiers never make it fail). -/
theorem spec_c1 (settings : SettingsTree) (item_code supplier : String)
    (hM : ∀ f, (settings.master_defaults f).isSome) :
    (∀ f, get_settings_for_item item_code supplier settings f =
      specFieldFallback
        (((settings.overrides.lookup item_code).getD emptyPartial) f)
        (((settings.defaults.lookup supplier).getD emptyPartial) f)
        (settings.master_defaults f))
    ∧ (settings.overrides.lookup item_code = none →
        settings.defaults.lookup supplier = none →
        ∀ f, get_settings_for_item item_code supplier settings f =
          settings.master_defaults f)
    ∧ (∀ f, (get_settings_for_item item_code supplier settings f).isSome) := by
  refine ⟨get_settings_eq_fallback settings item_code supplier, ?_, ?_⟩
  · intro h1 h2 f
    rw [get_settings_eq_fallback, h1, h2]
    simp [specFieldFallback, emptyPartial]
  · intro f
    rw [get_settings_eq_fallback]
    cases ho : ((settings.overrides.lookup item_code).getD emptyPartial) f <;>
      cases hs : ((settings.defaults.lookup supplier).getD emptyPartial) f <;>
      simp [specFieldFallback, hM f]

/-- Witness for C1 on a concrete tree: master defines all five fields,
supplier `X` defines only `lead_time 7`, there is no item override, and the
resolution for an item under supplier `X` yields `lead_time 7` (from the
supplier tier) and `order_unit 5` (from the master tier). -/
theorem spec_c1_witness :
    get_settings_for_item "A001" "X" treeFallback SettingField.lead_time = some 7
    ∧ get_settings_for_item "A001" "X" treeFallback SettingField.order_unit = some 5 := by
  have h := spec_c1 treeFallback "A001" "X" (by decide)
  refine ⟨(h.1 SettingField.lead_time).trans (by decide),
    (h.1 SettingField.order_unit).trans (by decide)⟩

/-- C2: rounding law for branch B.  For every row calculated with a positive
period whose base order quantity is positive and whose resolved addition
rate is non-negative (rates are stored as non-negative percentages), the
recommended quantity equals `ceil(base * (1 + A) / U) * U` for the order
unit `U` coerced to 1 when the resolved unit is non-positive; it is a
positive multiple of `U`, at least `base * (1 + A)`, and the smallest
multiple of `U` with that property; the non-positive unit is silently
coerced, never rejected. -/
theorem spec_c2 (settings : SettingsTree) (period_days : ℤ) (row : ItemRow)
    (hp : 0 < period_days)
    (hb : 0 < baseOrderQuantity settings period_days row)
    (hA : 0 ≤ additionRateOf settings row) :
    (calcRow settings period_days row).recommended =
      Int.ceil (calculatedQuantity settings period_days row /
        (orderUnitOf settings row : ℚ)) * orderUnitOf settings row
    ∧ 0 < (calcRow settings period_days row).recommended
    ∧ orderUnitOf settings row ∣ (calcRow settings period_days row).recommended
    ∧ calculatedQuantity settings period_days row ≤
        ((calcRow settings period_days row).recommended : ℚ)
    ∧ (∀ k : ℤ, orderUnitOf settings row ∣ k →
        calculatedQuantity settings period_days row ≤ (k : ℚ) →
        (calcRow settings period_days row).recommended ≤ k)
    ∧ (rawOrderUnit settings row ≤ 0 → orderUnitOf settings row = 1) := by
  have hrec : (calcRow settings period_days row).recommended =
      finalOrderQuantity settings period_days row := by
    rw [calcRow_branchB settings row hp (not_le.mpr hb)]
  have hx : 0 < calculatedQuantity settings period_days row :=
    mul_pos hb (by linarith)
  have hu := one_le_orderUnitOf settings row
  obtain ⟨hle, hpos, hmin⟩ :=
    ceil_unit_round (calculatedQuantity settings period_days row)
      (orderUnitOf settings row) hu
  rw [hrec]
  refine ⟨rfl, hpos hx, dvd_mul_left _ _, hle, hmin, ?_⟩
  intro h
  rw [orderUnitOf, if_pos h]

/-- Witness for C2: the scenario row (base 250, addition rate 5 %, order
unit 10) satisfies the hypotheses and its recommended quantity 270 is a
positive multiple of 10 dominating 262.5. -/
theorem spec_c2_witness :
    0 < (calcRow treeB 30 rowS1).recommended
    ∧ (orderUnitOf treeB rowS1) ∣ (calcRow treeB 30 rowS1).recommended
    ∧ calculatedQuantity treeB 30 rowS1 ≤ ((calcRow treeB 30 rowS1).recommended : ℚ) := by
  have h := spec_c2 treeB 30 rowS1 (by norm_num)
    (by rw [rowS1_base]; norm_num)
    (by rw [rowS1_additionRate]; norm_num)
  exact ⟨h.2.1, h.2.2.1, h.2.2.2.1⟩

/-- C3: the worked calculation scenario.  For sales 600 over 30 days, stock
80, lead time 15, safety rate 10 %, addition rate 5 %, order unit 10: the
average daily sales are 20, lead-time sales 300, safety stock 30, reorder
point 330, base order quantity 250, scaled quantity 262.5, recommended
quantity 270, and the status is urgent reorder because the stock 80 is
below 270. -/
theorem spec_c3 :
    avgDailySales 30 rowS1 = 20
    ∧ salesDuringLeadTime treeB 30 rowS1 = 300
    ∧ safetyStock treeB 30 rowS1 = 30
    ∧ reorderPoint treeB 30 rowS1 = 330
    ∧ baseOrderQuantity treeB 30 rowS1 = 250
    ∧ calculatedQuantity treeB 30 rowS1 = 525 / 2
    ∧ (calcRow treeB 30 rowS1).recommended = 270
    ∧ (calcRow treeB 30 rowS1).status = Status.urgentReorder
    ∧ rowS1.current_stock < (calcRow treeB 30 rowS1).recommended := by
  have hB := calcRow_branchB treeB rowS1 (p := 30) (by norm_num)
    (by rw [rowS1_base]; norm_num)
  refine ⟨rowS1_avg, rowS1_sdlt, rowS1_safety, rowS1_rp, rowS1_base, rowS1_calc,
    ?_, ?_, ?_⟩
  · rw [hB, rowS1_final]
  · rw [hB]
    show (if rowS1.current_stock < finalOrderQuantity treeB 30 rowS1 then
      Status.urgentReorder else Status.reorderNeeded) = Status.urgentReorder
    rw [rowS1_final, if_pos (by decide)]
  · rw [hB, rowS1_final]
    decide

/-- C4: branch A classification.  For every row calculated with a period of
at least one day whose base order quantity is non-positive: when the stock
exceeds twice the reorder point and the reorder point is positive, the
status is excess stock and the excess quantity is
`current_stock - ceil(reorder_point)`; otherwise the status is stock
sufficient with excess 0 and recommendation 0.  Moreover in every output
row the excess quantity is a non-negative integer and is zero unless the
status is excess stock. -/
theorem spec_c4 :
    (∀ (settings : SettingsTree) (row : ItemRow) (p : ℤ), 1 ≤ p →
      baseOrderQuantity settings p row ≤ 0 →
      (((row.current_stock : ℚ) > reorderPoint settings p row * 2 ∧
          0 < reorderPoint settings p row) →
        (calcRow settings p row).status = Status.excessStock ∧
        (calcRow settings p row).excess =
          row.current_stock - Int.ceil (reorderPoint settings p row))
      ∧ (¬((row.current_stock : ℚ) > reorderPoint settings p row * 2 ∧
          0 < reorderPoint settings p row) →
        (calcRow settings p row).status = Status.stockSufficient ∧
        (calcRow settings p row).excess = 0 ∧
        (calcRow settings p row).recommended = 0))
    ∧ (∀ (settings : SettingsTree) (row : ItemRow) (p : ℤ),
        0 ≤ (calcRow settings p row).excess ∧
        ((calcRow settings p row).status ≠ Status.excessStock →
          (calcRow settings p row).excess = 0)) := by
  constructor
  · intro settings row p hp hb
    constructor
    · intro hc
      rw [calcRow_excess settings row (by omega) hb hc]
      exact ⟨rfl, rfl⟩
    · intro hc
      rw [calcRow_sufficient settings row (by omega) hb hc]
      exact ⟨rfl, rfl, rfl⟩
  · intro settings row p
    by_cases hp : 0 < p
    · by_cases hb : baseOrderQuantity settings p row ≤ 0
      · by_cases hc : (row.current_stock : ℚ) > reorderPoint settings p row * 2 ∧
            0 < reorderPoint settings p row
        · rw [calcRow_excess settings row hp hb hc]
          have hrp : reorderPoint settings p row ≤ (row.current_stock : ℚ) := by
            have h2 : reorderPoint settings p row < reorderPoint settings p row * 2 := by
              have := hc.2
              linarith
            linarith [hc.1]
          have hceil : Int.ceil (reorderPoint settings p row) ≤ row.current_stock :=
            Int.ceil_le.mpr (by exact_mod_cast hrp)
          refine ⟨?_, ?_⟩
          · show (0 : ℤ) ≤ row.current_stock - Int.ceil (reorderPoint settings p row)
            omega
          · intro h
            exact absurd rfl h
        · rw [calcRow_sufficient settings row hp hb hc]
          exact ⟨le_refl 0, fun _ => rfl⟩
      · rw [calcRow_branchB settings row hp hb]
        exact ⟨le_refl 0, fun _ => rfl⟩
    · rw [calcRow_periodInvalid settings row (by omega)]
      exact ⟨le_refl 0, fun _ => rfl⟩

/-- Witness for C4: the overstock scenario row (reorder point 330, stock
800 > 660) is classified excess stock with excess quantity 800 - 330 = 470,
and the excess quantity is non-negative. -/
theorem spec_c4_witness :
    (calcRow treeB 30 rowS3).status = Status.excessStock
    ∧ (calcRow treeB 30 rowS3).excess = 470
    ∧ 0 ≤ (calcRow treeB 30 rowS3).excess := by
  have hcond : (rowS3.current_stock : ℚ) > reorderPoint treeB 30 rowS3 * 2 ∧
      0 < reorderPoint treeB 30 rowS3 := by
    rw [rowS3_rp, show rowS3.current_stock = 800 from rfl]
    norm_num
  have h := (spec_c4.1 treeB rowS3 30 (by norm_num)
    (by rw [rowS3_base]; norm_num)).1 hcond
  have hnn := (spec_c4.2 treeB rowS3 30).1
  refine ⟨h.1, ?_, hnn⟩
  rw [h.2, rowS3_rp, show rowS3.current_stock = 800 from rfl,
    show Int.ceil ((330 : ℚ)) = 330 from by rw [Int.ceil_eq_iff]; norm_num]
  norm_num

/-- C5: degenerate period handling.  When the calculator runs with a
non-positive period it does not fail: every input row appears in the output
in order, with recommended quantity 0, the period-invalid status, and an
infinite days-to-stockout, whatever the row's data or settings. -/
theorem spec_c5 (settings : SettingsTree) (period_days : ℤ) (rows : List ItemRow)
    (hp : period_days ≤ 0) :
    (calculate_order_quantity rows settings period_days).map CalcResult.row = rows
    ∧ ∀ res ∈ calculate_order_quantity rows settings period_days,
        res.recommended = 0 ∧ res.status = Status.periodInvalid ∧
        res.days_to_stockout = none := by
  constructor
  · rw [calculate_order_quantity, List.map_map]
    have h : CalcResult.row ∘ calcRow settings period_days = id := by
      funext r
      show (calcRow settings period_days r).row = r
      exact calcRow_row settings period_days r
    rw [h, List.map_id]
  · intro res hres
    rw [calculate_order_quantity, List.mem_map] at hres
    obtain ⟨r, _, rfl⟩ := hres
    rw [calcRow_periodInvalid settings r hp]
    exact ⟨rfl, rfl, rfl⟩

/-- Witness for C5 at period 0 with one concrete row. -/
theorem spec_c5_witness :
    (calculate_order_quantity [rowS1] treeB 0).map CalcResult.row = [rowS1]
    ∧ (calcRow treeB 0 rowS1).recommended = 0
    ∧ (calcRow treeB 0 rowS1).status = Status.periodInvalid
    ∧ (calcRow treeB 0 rowS1).days_to_stockout = none := by
  have h := spec_c5 treeB 0 [rowS1] (by norm_num)
  have hmem : calcRow treeB 0 rowS1 ∈ calculate_order_quantity [rowS1] treeB 0 := by
    rw [calculate_order_quantity]
    exact List.mem_map_of_mem _ (List.mem_singleton_self rowS1)
  obtain ⟨h1, h2, h3⟩ := h.2 _ hmem
  exact ⟨h.1, h1, h2, h3⟩

/-- C9: days-to-stockout rule.  For every row calculated with a positive
period the days-to-stockout equals `current_stock / avg_daily_sales` when
the average daily sales are positive and is infinite when they are zero;
in particular the zero-sales scenario row (sales 0 over 30 days, stock 100,
master defaults) is classified stock sufficient with infinite
days-to-stockout. -/
theorem spec_c9 :
    (∀ (settings : SettingsTree) (p : ℤ) (row : ItemRow), 0 < p →
      (0 < avgDailySales p row →
        (calcRow settings p row).days_to_stockout =
          some ((row.current_stock : ℚ) / avgDailySales p row))
      ∧ (avgDailySales p row = 0 →
        (calcRow settings p row).days_to_stockout = none))
    ∧ (calcRow treeA 30 rowS2).status = Status.stockSufficient
    ∧ (calcRow treeA 30 rowS2).days_to_stockout = none := by
  have hmain : ∀ (settings : SettingsTree) (p : ℤ) (row : ItemRow), 0 < p →
      (0 < avgDailySales p row →
        (calcRow settings p row).days_to_stockout =
          some ((row.current_stock : ℚ) / avgDailySales p row))
      ∧ (avgDailySales p row = 0 →
        (calcRow settings p row).days_to_stockout = none) := by
    intro settings p row hp
    rw [calcRow_days settings row hp]
    constructor
    · intro h
      rw [daysOf, if_pos h]
    · intro h
      rw [daysOf, if_neg (by rw [h]; exact lt_irrefl 0)]
  have hsuff : calcRow treeA 30 rowS2 =
      ⟨rowS2, 0, 0, Status.stockSufficient, daysOf 30 rowS2, appliedOf treeA rowS2⟩ := by
    apply calcRow_sufficient treeA rowS2 (by norm_num)
    · rw [rowS2_base]; norm_num
    · rw [rowS2_rp]
      intro hc
      exact lt_irrefl 0 hc.2
  refine ⟨hmain, ?_, ?_⟩
  · rw [hsuff]
  · rw [hsuff]
    show daysOf 30 rowS2 = none
    rw [daysOf, if_neg (by rw [rowS2_avg]; exact lt_irrefl 0)]

/-- Witness for C9: the scenario row has positive average daily sales 20
and days-to-stockout 80 / 20 = 4 days. -/
theorem spec_c9_witness :
    (calcRow treeB 30 rowS1).days_to_stockout = some 4 := by
  have h := (spec_c9.1 treeB 30 rowS1 (by norm_num)).1
    (by rw [rowS1_avg]; norm_num)
  rw [h, rowS1_avg, show rowS1.current_stock = 80 from rfl]
  norm_num

/-- C10: frame property of the calculator.  For every input collection,
settings tree and period, the calculator produces exactly one output row
per input row, in the same order, each carrying its input row unchanged —
the input fields are never modified, only the result fields are added. -/
theorem spec_c10 (rows : List ItemRow) (settings : SettingsTree) (p : ℤ) :
    (calculate_order_quantity rows settings p).map CalcResult.row = rows
    ∧ (calculate_order_quantity rows settings p).length = rows.length := by
  constructor
  · rw [calculate_order_quantity, List.map_map]
    have h : CalcResult.row ∘ calcRow settings p = id := by
      funext r
      show (calcRow settings p r).row = r
      exact calcRow_row settings p r
    rw [h, List.map_id]
  · rw [calculate_order_quantity, List.length_map]

/-- C6: exclusion filter semantics.  The filter keeps exactly the rows that
match no keyword and meet the resolved `min_sales` threshold; the first
reported count is the number of rows whose name contains one of the five
fixed keywords (missing names never match and are kept), the second is the
number of surviving rows whose sales fall strictly below their three-tier
resolved threshold; keyword matching is case-sensitive substring matching,
and the threshold resolution follows the item / supplier / master fallback
chain. -/
theorem spec_c6 (rows : List ItemRow) (settings : SettingsTree) :
    (∀ r : ItemRow, r ∈ (filter_rows rows settings).1 ↔
      r ∈ rows ∧ keywordExcluded r = false ∧
        get_min_sales_for_row r settings ≤ r.sales_quantity)
    ∧ (filter_rows rows settings).2.1 =
        (rows.filter (fun r => keywordExcluded r)).length
    ∧ (filter_rows rows settings).2.2 =
        ((rows.filter (fun r => !(keywordExcluded r))).filter
          (fun r => decide (r.sales_quantity < get_min_sales_for_row r settings))).length
    ∧ (∀ r : ItemRow, r.name = none → keywordExcluded r = false)
    ∧ (∀ (r : ItemRow) (n : String), r.name = some n →
        (keywordExcluded r = true ↔
          ∃ k ∈ EXCLUDE_KEYWORDS, k.toList <:+: n.toList))
    ∧ (∀ r : ItemRow, get_min_sales_for_row r settings =
        (specFieldFallback
          ((settings.overrides.lookup r.item_code).bind
            (fun ps => ps SettingField.min_sales))
          ((settings.defaults.lookup r.supplier).bind
            (fun ps => ps SettingField.min_sales))
          (settings.master_defaults SettingField.min_sales)).getD 0) := by
  refine ⟨?_, ?_, ?_, ?_, ?_, ?_⟩
  · intro r
    simp only [filter_rows, List.mem_filter, Bool.not_eq_true', decide_eq_true_eq]
    tauto
  · show rows.length -
        (rows.filter (fun r => !(keywordExcluded r))).length = _
    have h := length_filter_split (fun r => keywordExcluded r) rows
    omega
  · show (rows.filter (fun r => !(keywordExcluded r))).length -
        ((rows.filter (fun r => !(keywordExcluded r))).filter
          (fun r => decide (get_min_sales_for_row r settings ≤ r.sales_quantity))).length = _
    have h := length_filter_split
      (fun r => decide (get_min_sales_for_row r settings ≤ r.sales_quantity))
      (rows.filter (fun r => !(keywordExcluded r)))
    have hcongr : (rows.filter (fun r => !(keywordExcluded r))).filter
        (fun r => decide (r.sales_quantity < get_min_sales_for_row r settings)) =
      (rows.filter (fun r => !(keywordExcluded r))).filter
        (fun r => !(decide (get_min_sales_for_row r settings ≤ r.sales_quantity))) := by
      apply List.filter_congr
      intro a _
      rw [← decide_not]
      exact decide_eq_decide.mpr not_le.symm
    rw [hcongr]
    omega
  · intro r h
    rw [keywordExcluded, h]
  · intro r n h
    rw [keywordExcluded, h]
    simp only [List.any_eq_true, strContainsSub_iff]
  · intro r
    rw [get_min_sales_for_row]
    cases ho : (settings.overrides.lookup r.item_code).bind
        (fun ps => ps SettingField.min_sales) with
    | some v => rfl
    | none =>
      cases hs : (settings.defaults.lookup r.supplier).bind
          (fun ps => ps SettingField.min_sales) with
      | some v => rfl
      | none => rfl

/-- Witness for C6 on concrete rows: with master `min_sales 50`, the
shipping-fee row is dropped by the keyword step, the sales-40 row is
dropped by the threshold step, the sales-60 row is kept, and the two
exclusion counts are 1 and 1. -/
theorem spec_c6_witness :
    rowQ60 ∈ (filter_rows [rowKeyword, rowQ40, rowQ60] treeMin).1
    ∧ rowKeyword ∉ (filter_rows [rowKeyword, rowQ40, rowQ60] treeMin).1
    ∧ rowQ40 ∉ (filter_rows [rowKeyword, rowQ40, rowQ60] treeMin).1
    ∧ (filter_rows [rowKeyword, rowQ40, rowQ60] treeMin).2.1 = 1
    ∧ (filter_rows [rowKeyword, rowQ40, rowQ60] treeMin).2.2 = 1 := by
  have h := spec_c6 [rowKeyword, rowQ40, rowQ60] treeMin
  refine ⟨?_, ?_, ?_, ?_, ?_⟩
  · exact (h.1 rowQ60).mpr ⟨by decide, by decide, by decide⟩
  · intro hmem
    have hk := ((h.1 rowKeyword).mp hmem).2.1
    exact absurd hk (by decide)
  · intro hmem
    have hq := ((h.1 rowQ40).mp hmem).2.2
    exact absurd hq (by decide)
  · rw [h.2.1]
    decide
  · rw [h.2.2.1]
    decide

/-- C7: overstock classifier rule.  The per-row ratio is
`current_stock / sales_quantity`, undefined when the sales quantity is 0;
the median is taken over the defined ratios only.  When the median exists,
the classifier keeps the row count and each output row carries its input
row with status severe excess when its defined ratio is at least the
median, excess when its defined ratio is below the median (undefined-ratio
rows are relabeled excess); when no median exists (empty input or all
ratios undefined) every row is left unchanged. -/
theorem spec_c7 (l : List CalcResult) :
    (medianQ (l.filterMap ratioOf) = none → classify_overstock l = l)
    ∧ (∀ m : ℚ, medianQ (l.filterMap ratioOf) = some m →
        (classify_overstock l).length = l.length
        ∧ ∀ pr ∈ l.zip (classify_overstock l),
            pr.2.row = pr.1.row
            ∧ (∀ q : ℚ, ratioOf pr.1 = some q →
                (m ≤ q → pr.2.status = Status.severeExcessStock)
                ∧ (q < m → pr.2.status = Status.excessStock))
            ∧ (ratioOf pr.1 = none → pr.2.status = Status.excessStock))
    ∧ (∀ r : CalcResult,
        (r.row.sales_quantity = 0 → ratioOf r = none)
        ∧ (r.row.sales_quantity ≠ 0 →
            ratioOf r = some ((r.row.current_stock : ℚ) / (r.row.sales_quantity : ℚ)))) := by
  refine ⟨?_, ?_, ?_⟩
  · intro h
    rw [classify_overstock, h]
  · intro m hm
    have hcl : classify_overstock l = l.map (relabel m) := by
      rw [classify_overstock, hm]
    constructor
    · rw [hcl, List.length_map]
    · intro pr hpr
      rw [hcl] at hpr
      have h2 := mem_zip_map (relabel m) l pr hpr
      rw [h2]
      refine ⟨rfl, ?_, ?_⟩
      · intro q hq
        constructor
        · intro hle
          show (if severeTest pr.1 m then Status.severeExcessStock
            else Status.excessStock) = Status.severeExcessStock
          rw [if_pos]
          rw [severeTest, hq]
          exact decide_eq_true hle
        · intro hlt
          show (if severeTest pr.1 m then Status.severeExcessStock
            else Status.excessStock) = Status.excessStock
          rw [if_neg]
          rw [severeTest, hq]
          simp only [decide_eq_true_eq]
          exact not_le.mpr hlt
      · intro hq
        show (if severeTest pr.1 m then Status.severeExcessStock
          else Status.excessStock) = Status.excessStock
        rw [if_neg]
        rw [severeTest, hq]
        simp
  · intro r
    constructor
    · intro h
      rw [ratioOf, if_pos h]
    · intro h
      rw [ratioOf, if_neg h]

/-- Witness for C7: over the two concrete overstock rows (ratios 4 and 2,
median 3) the classifier relabels the first severe excess and the second
excess. -/
theorem spec_c7_witness :
    medianQ ([overRowHigh, overRowLow].filterMap ratioOf) = some 3
    ∧ (classify_overstock [overRowHigh, overRowLow]).map CalcResult.status =
        [Status.severeExcessStock, Status.excessStock] := by
  refine ⟨median_overPair, ?_⟩
  have h := (spec_c7 [overRowHigh, overRowLow]).2.1 3 median_overPair
  have hcl : classify_overstock [overRowHigh, overRowLow] =
      [relabel 3 overRowHigh, relabel 3 overRowLow] := by
    rw [classify_overstock, median_overPair]
    rfl
  have hzip : [overRowHigh, overRowLow].zip
      (classify_overstock [overRowHigh, overRowLow]) =
      [(overRowHigh, relabel 3 overRowHigh), (overRowLow, relabel 3 overRowLow)] := by
    rw [hcl]
    rfl
  have h1 : (relabel 3 overRowHigh).status = Status.severeExcessStock := by
    have hmem : (overRowHigh, relabel 3 overRowHigh) ∈
        [overRowHigh, overRowLow].zip (classify_overstock [overRowHigh, overRowLow]) := by
      rw [hzip]
      exact List.mem_cons_self _ _
    exact ((h.2 _ hmem).2.1 4 ratio_overRowHigh).1 (by norm_num)
  have h2 : (relabel 3 overRowLow).status = Status.excessStock := by
    have hmem : (overRowLow, relabel 3 overRowLow) ∈
        [overRowHigh, overRowLow].zip (classify_overstock [overRowHigh, overRowLow]) := by
      rw [hzip]
      exact List.mem_cons_of_mem _ (List.mem_cons_self _ _)
    exact ((h.2 _ hmem).2.1 2 ratio_overRowLow).2 (by norm_num)
  rw [hcl]
  rw [List.map_cons, List.map_cons, List.map_nil, h1, h2]

/-- C8: idempotence of the overstock classifier.  For every collection of
result rows whose statuses are excess or severe excess, applying the
classifier twice yields the same result as applying it once. -/
theorem spec_c8 (l : List CalcResult)
    (hst : ∀ r ∈ l, r.status = Status.excessStock ∨
      r.status = Status.severeExcessStock) :
    classify_overstock (classify_overstock l) = classify_overstock l := by
  cases hm : medianQ (l.filterMap ratioOf) with
  | none =>
    have h1 : classify_overstock l = l := by rw [classify_overstock, hm]
    rw [h1]
    exact h1
  | some m =>
    have h1 : classify_overstock l = l.map (relabel m) := by
      rw [classify_overstock, hm]
    rw [h1]
    have h2 : medianQ ((l.map (relabel m)).filterMap ratioOf) = some m := by
      rw [filterMap_ratioOf_map_relabel, hm]
    have h3 : relabel m ∘ relabel m = relabel m :=
      funext fun r => relabel_relabel m r
    have h4 : classify_overstock (l.map (relabel m)) =
        (l.map (relabel m)).map (relabel m) := by
      rw [classify_overstock, h2]
    rw [h4, List.map_map, h3]

/-- Witness for C8: idempotence on the two concrete overstock rows. -/
theorem spec_c8_witness :
    classify_overstock (classify_overstock [overRowHigh, overRowLow]) =
      classify_overstock [overRowHigh, overRowLow] :=
  spec_c8 [overRowHigh, overRowLow] (by decide)

end ProductOrder
